import Mathlib

/-!
Shallow embedding of the acquisition-analysis orchestration engine of the
repository (Python sources under `src/`): the Veolia token manager and
analysis client (`src/analysis/veolia_analysis.py`), the two capture
variants (`src/camera/local_camera.py`, `src/camera/reolink_camera.py`),
the retention sweep (`src/utils/helpers.py`), and the two orchestration
loops (`src/main.py`, `src/capture_dataset.py`).

External effects (HTTP responses, the JSON library, the camera driver, the
clock, the random generator, the filesystem) are supplied as explicit
parameters describing what each interaction yields, and each embedded
function additionally returns a trace of the observable effects it
performed (requests sent, delays slept), so that the control flow of the
Python source is mirrored exactly.
-/

namespace VWT

/-- Python truthiness of an optional string: `None` and `""` are falsy,
every other string is truthy. -/
def strTruthy : Option String → Bool
  | none => false
  | some s => !(s == "")

/-- Cached credential state of `VeoliaTokenManager` (`veolia_analysis.py`):
fields `self.token` (initially `None`) and `self.expiry` (initially `0`).
Timestamps are modelled as rationals (Python floats from `time.time()`). -/
structure TokenState where
  token : Option String
  expiry : ℚ
deriving DecidableEq, Repr

/-- Initial state set by `VeoliaTokenManager.__init__`. -/
def TokenState.init : TokenState := { token := none, expiry := 0 }

/-- What the credential-exchange endpoint yields for one refresh request:
a 200 response whose JSON body parses to `access_token`/`expires_in`
(the `int(...)`-converted lifetime), a non-200 response, or a transport
exception raised by `requests.post`. -/
inductive TokenResponse where
  | ok (access_token : String) (expires_in : ℤ)
  | httpError (status : Nat)
  | exception
deriving DecidableEq, Repr

/-- Result of one `get_token` call: the returned value (`None` on
failure), the token-manager state after the call, and how many HTTP
refresh requests the call performed. -/
structure GetTokenResult where
  ret : Option String
  state : TokenState
  httpCalls : Nat
deriving DecidableEq, Repr

/-- Embedding of `VeoliaTokenManager.get_token` (`veolia_analysis.py`):
if a truthy cached token exists and `current_time < self.expiry - 60`,
return it with no HTTP request; otherwise perform exactly one refresh
request.  On status 200 store the new token and set
`self.expiry = current_time + int(expires_in)` and return the token; on a
non-200 status or an exception, return `None` leaving `self.token` and
`self.expiry` untouched (those branches of the source contain no
assignment). -/
def get_token (st : TokenState) (now : ℚ) (backend : TokenResponse) :
    GetTokenResult :=
  if strTruthy st.token = true ∧ now < st.expiry - 60 then
    { ret := st.token, state := st, httpCalls := 0 }
  else
    match backend with
    | .ok tok life =>
        { ret := some tok
          state := { token := some tok, expiry := now + (life : ℚ) }
          httpCalls := 1 }
    | .httpError _ => { ret := none, state := st, httpCalls := 1 }
    | .exception => { ret := none, state := st, httpCalls := 1 }

/-- What one HTTP attempt against the analysis endpoint yields:
a response with a status code and a body (`some v` when `json.loads`
succeeds on the body and parses it to the document `v`, `none` when it
raises `JSONDecodeError`), or a transport exception raised by
`requests.post`. -/
inductive ApiAttempt where
  | reply (status : Nat) (body : Option String)
  | exception
deriving DecidableEq, Repr

/-- An attempt outcome that the retry loop of `analyze_image_veolia`
retries on: a non-200 status, or a transport exception.  A 200 response
is never retried (its body either parses, ending the call with a result,
or fails to parse, ending the call with an immediate error). -/
def retryable : ApiAttempt → Bool
  | .reply s _ => !(s == 200)
  | .exception => true

/-- Trace of the `for attempt in range(retries)` loop of
`analyze_image_veolia`: the value the loop returns (`none` for the final
`return None`), the backoff delays slept in order, and the bearer token
attached to each HTTP request actually sent, in order. -/
structure ApiCallTrace where
  result : Option String
  sleeps : List ℚ
  authTokens : List String
deriving DecidableEq, Repr

/-- Embedding of the retry loop of `analyze_image_veolia`
(`veolia_analysis.py`): attempt index `i`, remaining iterations `fuel`.
On status 200 with a parsing body, return the parsed result; on status
200 with a non-parsing body, `return None` at once; on any other status
or an exception, `time.sleep(2 ** attempt + random.uniform(0, 1))` and
iterate (the jitter drawn during attempt `i` is `jitter i`).  The
`headers` dict is built once outside the loop, so every request carries
the same token `tok`. -/
def apiLoop (tok : String) (env : Nat → ApiAttempt) (jitter : Nat → ℚ) :
    Nat → Nat → ApiCallTrace
  | _, 0 => { result := none, sleeps := [], authTokens := [] }
  | i, fuel + 1 =>
    match env i with
    | .reply s b =>
      if s = 200 then
        match b with
        | some v => { result := some v, sleeps := [], authTokens := [tok] }
        | none => { result := none, sleeps := [], authTokens := [tok] }
      else
        let t := apiLoop tok env jitter (i + 1) fuel
        { result := t.result
          sleeps := ((2 : ℚ) ^ i + jitter i) :: t.sleeps
          authTokens := tok :: t.authTokens }
    | .exception =>
        let t := apiLoop tok env jitter (i + 1) fuel
        { result := t.result
          sleeps := ((2 : ℚ) ^ i + jitter i) :: t.sleeps
          authTokens := tok :: t.authTokens }

/-- Result of one `analyze_image_veolia` call: the returned value, the
delays slept, the token attached to each analysis request sent, and how
many times `token_manager.get_token()` was invoked during the call. -/
structure AnalyzeOutcome where
  result : Option String
  sleeps : List ℚ
  authTokens : List String
  tokenFetches : Nat
deriving DecidableEq, Repr

/-- Embedding of `analyze_image_veolia` (`veolia_analysis.py`).
`imageReadOk` is whether reading and base64-encoding the file succeeds
(on failure the call returns `None` before touching the token manager).
The call then invokes `get_token` exactly once; a falsy token
short-circuits with `None`; otherwise the retry loop runs with the
single `Authorization` header built from that token.  `env k` is what
the `k`-th HTTP attempt yields and `jitter k` the uniform jitter drawn
during attempt `k`. -/
def analyze_image_veolia (imageReadOk : Bool) (tmSt : TokenState)
    (now : ℚ) (tokenBackend : TokenResponse) (env : Nat → ApiAttempt)
    (jitter : Nat → ℚ) (retries : Nat := 3) : AnalyzeOutcome :=
  if imageReadOk = false then
    { result := none, sleeps := [], authTokens := [], tokenFetches := 0 }
  else
    match (get_token tmSt now tokenBackend).ret with
    | none =>
        { result := none, sleeps := [], authTokens := [], tokenFetches := 1 }
    | some tok =>
        if tok = "" then
          { result := none, sleeps := [], authTokens := [], tokenFetches := 1 }
        else
          let t := apiLoop tok env jitter 0 retries
          { result := t.result, sleeps := t.sleeps
            authTokens := t.authTokens, tokenFetches := 1 }

/-- Embedding of the retry loop of `capture_image_local`
(`local_camera.py`): `env i` is whether the camera read of attempt `i`
succeeds, `timeAt i` the `time.strftime` timestamp when attempt `i`
runs.  On success the file is saved as
`image_dir/pre_timestamp.jpg` with the timestamp taken at that attempt,
and the path is returned at once; on failure the loop sleeps 1s and
retries.  The second component counts the attempts performed. -/
def captureLocalLoop (image_dir pre : String) (env : Nat → Bool)
    (timeAt : Nat → String) : Nat → Nat → Option String × Nat
  | _, 0 => (none, 0)
  | i, fuel + 1 =>
    if env i then
      (some (image_dir ++ "/" ++ pre ++ "_" ++ timeAt i ++ ".jpg"), 1)
    else
      let r := captureLocalLoop image_dir pre env timeAt (i + 1) fuel
      (r.1, r.2 + 1)

/-- Embedding of `capture_image_local` (`local_camera.py`): up to
`retries` attempts (default 3) starting at attempt index 0. -/
def capture_image_local (image_dir pre : String) (env : Nat → Bool)
    (timeAt : Nat → String) (retries : Nat := 3) : Option String × Nat :=
  captureLocalLoop image_dir pre env timeAt 0 retries

/-- The `camera` section and `image_dir` entry of the configuration as
consumed by `capture_image_reolink` (`reolink_camera.py`): `none`
models a missing key. -/
structure ReolinkConfig where
  ip : Option String
  user : Option String
  password : Option String
  image_dir : Option String
deriving DecidableEq, Repr

/-- The Reolink configuration is complete: `ip`, `user` and `password`
are all present and truthy (the source checks
`if not (ip and user and password)`). -/
def reolinkConfigured (cfg : ReolinkConfig) : Prop :=
  strTruthy cfg.ip = true ∧ strTruthy cfg.user = true ∧
    strTruthy cfg.password = true

instance (cfg : ReolinkConfig) : Decidable (reolinkConfigured cfg) := by
  unfold reolinkConfigured
  infer_instance

/-- Embedding of the retry loop of `capture_image_reolink`
(`reolink_camera.py`): the destination `filepath` is fixed before the
loop; `env i` is whether attempt `i` gets a 200 response (a non-200
status and a transport exception are both failed attempts).  On success
the body is streamed to `filepath` and the path returned at once; on
failure the loop sleeps 1s and retries.  The second component counts
the attempts performed. -/
def reolinkLoop (filepath : String) (env : Nat → Bool) :
    Nat → Nat → Option String × Nat
  | _, 0 => (none, 0)
  | i, fuel + 1 =>
    if env i then
      (some filepath, 1)
    else
      let r := reolinkLoop filepath env (i + 1) fuel
      (r.1, r.2 + 1)

/-- Embedding of `capture_image_reolink` (`reolink_camera.py`): an
incomplete camera configuration returns `None` at once with no attempt;
otherwise the destination path
`image_dir/pre_startTime.jpg` is computed exactly once, from the
`time.strftime` timestamp `startTime` taken before the retry loop, and
the loop runs with that fixed path.  `image_dir` defaults to
`captured_images` when absent from the configuration. -/
def capture_image_reolink (cfg : ReolinkConfig) (pre : String)
    (startTime : String) (env : Nat → Bool) (retries : Nat := 3) :
    Option String × Nat :=
  if reolinkConfigured cfg then
    let dir := cfg.image_dir.getD "captured_images"
    reolinkLoop (dir ++ "/" ++ pre ++ "_" ++ startTime ++ ".jpg") env 0 retries
  else
    (none, 0)

/-- One entry of the working directory tree for the retention sweep:
its path relative to `image_dir` (an entry of a subdirectory carries a
path containing a slash), its last-modified time, and whether
`os.remove` on it would succeed (`false` models a per-file deletion
error, raised and caught inside the loop of `cleanup_images`). -/
structure SFile where
  relPath : String
  mtime : ℚ
  removable : Bool
deriving DecidableEq, Repr

/-- The glob pattern `image_dir/*.jpg` used by `cleanup_images`
matches an entry exactly when it lies directly in the directory (no
path separator, since `*` never crosses one), is not a dotfile (glob
never matches a leading dot with `*`), and ends in `.jpg` (computed on
the character list underlying the path). -/
def matchesGlob (relPath : String) : Bool :=
  (".jpg".data.isSuffixOf relPath.data) && !(relPath.data.contains '/') &&
    !(relPath.data.head? == some '.')

/-- The `file_age > max_age_seconds` deletion test of `cleanup_images`
for a fixed `now`, combined with glob selection and deletion success:
exactly the entries for which this holds disappear from the directory. -/
def sweptAway (now maxAge : ℚ) (f : SFile) : Bool :=
  matchesGlob f.relPath && decide (maxAge < now - f.mtime) && f.removable

/-- Embedding of the per-file loop of `cleanup_images`
(`utils/helpers.py`): each globbed file is aged against `now`
(`time.time()` taken once before the loop) and removed when strictly
older than `max_age_seconds`; an `os.remove` error is caught inside
the loop body and the remaining files are still processed.  Returns the
directory contents after the sweep. -/
def cleanupLoop (now maxAge : ℚ) : List SFile → List SFile
  | [] => []
  | f :: rest =>
    if matchesGlob f.relPath then
      if maxAge < now - f.mtime then
        if f.removable then
          cleanupLoop now maxAge rest
        else
          f :: cleanupLoop now maxAge rest
      else
        f :: cleanupLoop now maxAge rest
    else
      f :: cleanupLoop now maxAge rest

/-- Embedding of `cleanup_images` (`utils/helpers.py`): the pair of the
directory contents after the sweep and the value the function returns
to its caller.  The Python function body contains no `return`
statement, so the call evaluates to `None`, embedded as
`(none : Option Nat)`. -/
def cleanup_images (now maxAge : ℚ) (fs : List SFile) :
    List SFile × Option Nat :=
  (cleanupLoop now maxAge fs, none)

/-- The hardcoded threshold `MAX_CONSECUTIVE_FAILURES` of
`capture_dataset.py`. -/
def MAX_CONSECUTIVE_FAILURES : Nat := 10

/-- What one iteration of the `capture_dataset.py` loop encounters:
the duration limit has been reached (checked before the `try` block);
the capture call returns `None`; the capture call returns a path (with
`uploadRaises` telling whether the optional Drive upload raises); or
the body raises some other exception that no inner handler catches. -/
inductive DsIterInput where
  | durationReached
  | capFail
  | capOk (uploadRaises : Bool)
  | bodyRaises
deriving DecidableEq, Repr

/-- Outcome of one iteration of the `capture_dataset.py` loop:
continue with the new failure counter (recording whether the iteration
slept the fixed 10s pause and whether it ran the post-capture steps),
exit the process via `sys.exit`, or leave the loop gracefully via
`break`. -/
inductive StepResult where
  | continueLoop (failures : Nat) (pausedTenSeconds : Bool)
      (ranPostCapture : Bool)
  | exitFatal (code : Nat)
  | breakLoop
deriving DecidableEq, Repr

/-- What the `try` block of a `capture_dataset.py` iteration evaluates
to: a normal outcome, or an `Exception` propagating to the iteration's
`except Exception` handler.  `sys.exit(1)` raises `SystemExit`, which
does not derive from `Exception`, so it is a normal (terminating)
outcome, not a raised one. -/
inductive DsRaw where
  | normal (r : StepResult)
  | raised
deriving DecidableEq, Repr

/-- Embedding of the `try` block of one `capture_dataset.py` iteration
with failure counter `f`: on capture failure, `consecutive_failures`
becomes `f + 1`; when it reaches `maxFail` the block calls
`sys.exit(1)`, otherwise it sleeps 10s and `continue`s, skipping the
post-capture steps.  On capture success the counter resets to 0 and the
post-capture steps run (an upload exception is caught by the inner
upload handler, which only logs).  Any other exception propagates out
of the block. -/
def dsBody (maxFail f : Nat) : DsIterInput → DsRaw
  | .durationReached => .normal .breakLoop
  | .capFail =>
    if maxFail ≤ f + 1 then
      .normal (.exitFatal 1)
    else
      .normal (.continueLoop (f + 1) true false)
  | .capOk _ => .normal (.continueLoop 0 false true)
  | .bodyRaises => .raised

/-- Embedding of one full `capture_dataset.py` iteration: the duration
check runs before the `try` block; an exception escaping the block is
caught by `except Exception`, which logs, sleeps 10s and `continue`s
with the failure counter unchanged. -/
def datasetStep (maxFail f : Nat) (i : DsIterInput) : StepResult :=
  match i with
  | .durationReached => .breakLoop
  | _ =>
    match dsBody maxFail f i with
    | .normal r => r
    | .raised => .continueLoop f true false

/-- Fate of the `capture_dataset.py` loop after consuming a finite
schedule of iteration inputs. -/
inductive LoopFate where
  | running (failures : Nat)
  | exited (code : Nat)
  | finished
deriving DecidableEq, Repr

/-- Runs the `capture_dataset.py` loop from failure counter `f` over a
schedule of iteration inputs. -/
def runDataset (maxFail : Nat) : Nat → List DsIterInput → LoopFate
  | f, [] => .running f
  | f, i :: rest =>
    match datasetStep maxFail f i with
    | .continueLoop g _ _ => runDataset maxFail g rest
    | .exitFatal c => .exited c
    | .breakLoop => .finished

/-- The value bound to `result` in an iteration of `main_loop`
(`main.py`) after the `analyze_image_veolia` call: a falsy value
(`None`), a parsed JSON object with its `water_detected` field, or a
string (the API returning a string directly), with `parsedWater` the
outcome of the secondary `json.loads` on it: `none` when `json.loads`
raises `JSONDecodeError`, `some w` when it yields an object whose
`water_detected` field is `w`. -/
inductive ResultVal where
  | noneResult
  | dictResult (water : Bool)
  | strResult (s : String) (parsedWater : Option Bool)
deriving DecidableEq, Repr

/-- Outcome of one iteration of `main_loop` (`main.py`): the iteration
completed (alert inspected, `cleanup_images` ran, the loop sleeps and
continues), the process exited via `sys.exit`, or an exception escaped
the iteration body — `main_loop` has no `try`/`except` around its
body, so such an exception propagates out of `main_loop` and crashes
the process. -/
inductive MainStep where
  | iterDone (alerted : Bool)
  | exited (code : Nat)
  | crashed
deriving DecidableEq, Repr

/-- Embedding of one iteration of `main_loop` (`main.py`): a capture
failure calls `sys.exit(1)` immediately; otherwise the analysis result
is inspected — a string result is re-parsed with `json.loads`, whose
`JSONDecodeError` is uncaught inside the loop and crashes the
process. -/
def mainIter (captureOk : Bool) (res : ResultVal) : MainStep :=
  if captureOk = false then
    .exited 1
  else
    match res with
    | .noneResult => .iterDone false
    | .dictResult w => .iterDone w
    | .strResult _ none => .crashed
    | .strResult _ (some w) => .iterDone w

/-- Concrete attempt schedule used in witnesses: attempt 0 raises a
transport exception, every later attempt returns HTTP 200 with a body
on which `json.loads` fails. -/
def envExcThen200Bad : Nat → ApiAttempt :=
  fun n => if n = 0 then .exception else .reply 200 none

/-- Concrete attempt schedule used in witnesses: every attempt raises
a transport exception. -/
def envAllExc : Nat → ApiAttempt := fun _ => .exception

/-- Concrete jitter draw used in witnesses: one half second for every
attempt. -/
def jitHalf : Nat → ℚ := fun _ => 1 / 2

/-- Concrete camera schedule used in witnesses: only attempt 1
succeeds. -/
def camOkAt1 : Nat → Bool := fun n => n == 1

/-- Concrete camera schedule used in witnesses: only attempt 2
succeeds. -/
def camOkAt2 : Nat → Bool := fun n => n == 2

/-- Concrete complete Reolink camera configuration used in witnesses,
with no `image_dir` entry (so the default applies). -/
def cfgW : ReolinkConfig :=
  { ip := some "10.0.0.9", user := some "admin", password := some "pw"
    image_dir := none }

/-- Concrete per-attempt timestamp map used in witnesses. -/
def timeAtW : Nat → String := fun n => "20250321-12000" ++ toString n

/-! Helper lemmas about the retry loop of the analysis client. -/

theorem apiLoop_all_retry (tok : String) (env : Nat → ApiAttempt)
    (jit : Nat → ℚ) :
    ∀ fuel i, (∀ j, j < fuel → retryable (env (i + j)) = true) →
      (apiLoop tok env jit i fuel).result = none ∧
      (apiLoop tok env jit i fuel).authTokens.length = fuel := by
  intro fuel
  induction fuel with
  | zero => intro i _; simp [apiLoop]
  | succ fuel ih =>
    intro i h
    have h0 : retryable (env i) = true := by
      have := h 0 (Nat.succ_pos fuel)
      simpa using this
    have hrec := ih (i + 1) (fun j hj => by
      have hx := h (j + 1) (Nat.succ_lt_succ hj)
      have he : i + (j + 1) = i + 1 + j := by omega
      rwa [he] at hx)
    cases henv : env i with
    | reply s b =>
      have hs : ¬ s = 200 := by
        rw [henv] at h0
        simpa [retryable] using h0
      simp [apiLoop, henv, hs, hrec.1, hrec.2]
    | exception =>
      simp [apiLoop, henv, hrec.1, hrec.2]

theorem apiLoop_parse_failure_stops (tok : String) (env : Nat → ApiAttempt)
    (jit : Nat → ℚ) :
    ∀ k fuel i, k < fuel → (∀ j, j < k → retryable (env (i + j)) = true) →
      env (i + k) = .reply 200 none →
      (apiLoop tok env jit i fuel).result = none ∧
      (apiLoop tok env jit i fuel).authTokens.length = k + 1 := by
  intro k
  induction k with
  | zero =>
    intro fuel i hk _ henv
    cases fuel with
    | zero => omega
    | succ fuel =>
      rw [Nat.add_zero] at henv
      simp [apiLoop, henv]
  | succ k ih =>
    intro fuel i hk hpre henv
    cases fuel with
    | zero => omega
    | succ fuel =>
      have h0 : retryable (env i) = true := by
        have := hpre 0 (Nat.succ_pos k)
        simpa using this
      have henv' : env (i + 1 + k) = .reply 200 none := by
        have he : i + (k + 1) = i + 1 + k := by omega
        rwa [he] at henv
      have hrec := ih fuel (i + 1) (by omega) (fun j hj => by
        have hx := hpre (j + 1) (Nat.succ_lt_succ hj)
        have he : i + (j + 1) = i + 1 + j := by omega
        rwa [he] at hx) henv'
      cases he : env i with
      | reply s b =>
        have hs : ¬ s = 200 := by
          rw [he] at h0
          simpa [retryable] using h0
        simp [apiLoop, he, hs, hrec.1, hrec.2]
      | exception =>
        simp [apiLoop, he, hrec.1, hrec.2]

theorem apiLoop_sleeps_elem (tok : String) (env : Nat → ApiAttempt)
    (jit : Nat → ℚ) :
    ∀ fuel i k d, (apiLoop tok env jit i fuel).sleeps[k]? = some d →
      d = 2 ^ (i + k) + jit (i + k) := by
  intro fuel
  induction fuel with
  | zero => intro i k d hd; simp [apiLoop] at hd
  | succ fuel ih =>
    intro i k d hd
    cases henv : env i with
    | reply s b =>
      by_cases hs : s = 200
      · subst hs
        cases b with
        | some v => rw [apiLoop] at hd; simp [henv] at hd
        | none => rw [apiLoop] at hd; simp [henv] at hd
      · rw [apiLoop] at hd
        simp only [henv, hs, if_false, ite_false] at hd
        cases k with
        | zero =>
          simp at hd
          simp only [Nat.add_zero]
          exact hd.symm
        | succ k =>
          have := ih (i + 1) k d (by simpa using hd)
          rw [this]
          have he : i + 1 + k = i + (k + 1) := by omega
          rw [he]
    | exception =>
      rw [apiLoop] at hd
      simp only [henv] at hd
      cases k with
      | zero =>
        simp at hd
        simp only [Nat.add_zero]
        exact hd.symm
      | succ k =>
        have := ih (i + 1) k d (by simpa using hd)
        rw [this]
        have he : i + 1 + k = i + (k + 1) := by omega
        rw [he]

theorem apiLoop_authTokens_eq (tok : String) (env : Nat → ApiAttempt)
    (jit : Nat → ℚ) :
    ∀ fuel i s, s ∈ (apiLoop tok env jit i fuel).authTokens → s = tok := by
  intro fuel
  induction fuel with
  | zero => intro i s hs; simp [apiLoop] at hs
  | succ fuel ih =>
    intro i s hs
    cases henv : env i with
    | reply st b =>
      by_cases h200 : st = 200
      · subst h200
        cases b with
        | some v => rw [apiLoop] at hs; simpa [henv] using hs
        | none => rw [apiLoop] at hs; simpa [henv] using hs
      · rw [apiLoop] at hs
        simp only [henv, h200, if_false, ite_false, List.mem_cons] at hs
        rcases hs with hs | hs
        · exact hs
        · exact ih (i + 1) s hs
    | exception =>
      rw [apiLoop] at hs
      simp only [henv, List.mem_cons] at hs
      rcases hs with hs | hs
      · exact hs
      · exact ih (i + 1) s hs

/-! Helper lemmas about the two capture retry loops. -/

theorem captureLocalLoop_all_fail (dir pre : String) (env : Nat → Bool)
    (timeAt : Nat → String) :
    ∀ fuel i, (∀ j, j < fuel → env (i + j) = false) →
      captureLocalLoop dir pre env timeAt i fuel = (none, fuel) := by
  intro fuel
  induction fuel with
  | zero => intro i _; simp [captureLocalLoop]
  | succ fuel ih =>
    intro i h
    have h0 : env i = false := by
      have := h 0 (Nat.succ_pos fuel)
      simpa using this
    have hrec := ih (i + 1) (fun j hj => by
      have hx := h (j + 1) (Nat.succ_lt_succ hj)
      have he : i + (j + 1) = i + 1 + j := by omega
      rwa [he] at hx)
    simp [captureLocalLoop, h0, hrec]

theorem captureLocalLoop_first_success (dir pre : String) (env : Nat → Bool)
    (timeAt : Nat → String) :
    ∀ k fuel i, k < fuel → env (i + k) = true →
      (∀ j, j < k → env (i + j) = false) →
      captureLocalLoop dir pre env timeAt i fuel =
        (some (dir ++ "/" ++ pre ++ "_" ++ timeAt (i + k) ++ ".jpg"), k + 1) := by
  intro k
  induction k with
  | zero =>
    intro fuel i hk hsucc _
    cases fuel with
    | zero => omega
    | succ fuel =>
      rw [Nat.add_zero] at hsucc
      simp [captureLocalLoop, hsucc]
  | succ k ih =>
    intro fuel i hk hsucc hpre
    cases fuel with
    | zero => omega
    | succ fuel =>
      have h0 : env i = false := by
        have := hpre 0 (Nat.succ_pos k)
        simpa using this
      have he : i + (k + 1) = i + 1 + k := by omega
      have hrec := ih fuel (i + 1) (by omega) (by rwa [he] at hsucc)
        (fun j hj => by
          have hx := hpre (j + 1) (Nat.succ_lt_succ hj)
          have he2 : i + (j + 1) = i + 1 + j := by omega
          rwa [he2] at hx)
      rw [he]
      simp [captureLocalLoop, h0, hrec]

theorem reolinkLoop_all_fail (fp : String) (env : Nat → Bool) :
    ∀ fuel i, (∀ j, j < fuel → env (i + j) = false) →
      reolinkLoop fp env i fuel = (none, fuel) := by
  intro fuel
  induction fuel with
  | zero => intro i _; simp [reolinkLoop]
  | succ fuel ih =>
    intro i h
    have h0 : env i = false := by
      have := h 0 (Nat.succ_pos fuel)
      simpa using this
    have hrec := ih (i + 1) (fun j hj => by
      have hx := h (j + 1) (Nat.succ_lt_succ hj)
      have he : i + (j + 1) = i + 1 + j := by omega
      rwa [he] at hx)
    simp [reolinkLoop, h0, hrec]

theorem reolinkLoop_first_success (fp : String) (env : Nat → Bool) :
    ∀ k fuel i, k < fuel → env (i + k) = true →
      (∀ j, j < k → env (i + j) = false) →
      reolinkLoop fp env i fuel = (some fp, k + 1) := by
  intro k
  induction k with
  | zero =>
    intro fuel i hk hsucc _
    cases fuel with
    | zero => omega
    | succ fuel =>
      rw [Nat.add_zero] at hsucc
      simp [reolinkLoop, hsucc]
  | succ k ih =>
    intro fuel i hk hsucc hpre
    cases fuel with
    | zero => omega
    | succ fuel =>
      have h0 : env i = false := by
        have := hpre 0 (Nat.succ_pos k)
        simpa using this
      have he : i + (k + 1) = i + 1 + k := by omega
      have hrec := ih fuel (i + 1) (by omega) (by rwa [he] at hsucc)
        (fun j hj => by
          have hx := hpre (j + 1) (Nat.succ_lt_succ hj)
          have he2 : i + (j + 1) = i + 1 + j := by omega
          rwa [he2] at hx)
      simp [reolinkLoop, h0, hrec]

/-! Helper lemmas about the retention sweep and the dataset loop. -/

theorem cleanupLoop_eq_filter (now maxAge : ℚ) :
    ∀ fs : List SFile, cleanupLoop now maxAge fs =
      fs.filter (fun g => !(sweptAway now maxAge g)) := by
  intro fs
  induction fs with
  | nil => simp [cleanupLoop]
  | cons f rest ih =>
    rw [cleanupLoop, ih]
    by_cases hm : matchesGlob f.relPath = true
    · by_cases ha : maxAge < now - f.mtime
      · by_cases hr : f.removable = true
        · simp [hm, ha, hr, sweptAway]
        · simp [hm, ha, sweptAway, List.filter,
            Bool.eq_false_iff.mpr hr]
      · simp [hm, ha, sweptAway, List.filter]
    · simp [sweptAway, Bool.eq_false_iff.mpr hm, List.filter]

theorem runDataset_replicate_capFail (M : Nat) :
    ∀ n f, f < M → runDataset M f (List.replicate n .capFail) =
      if f + n < M then .running (f + n) else .exited 1 := by
  intro n
  induction n with
  | zero =>
    intro f hf
    simp [runDataset, hf]
  | succ n ih =>
    intro f hf
    rw [List.replicate_succ, runDataset]
    by_cases hM : M ≤ f + 1
    · have hx : ¬ f + (n + 1) < M := by omega
      simp [datasetStep, dsBody, hM, hx]
    · have hrec := ih (f + 1) (by omega)
      have he : f + 1 + n = f + (n + 1) := by omega
      rw [he] at hrec
      simp [datasetStep, dsBody, hM, hrec]

/-! Claim theorems. -/

/-- C1: in the orchestration loop with the consecutive-failure counter
(`capture_dataset.py`), an iteration whose capture produces no image
increments the counter by exactly 1, and the iteration is fatal (process
exit with the non-zero code 1) exactly when the incremented counter
reaches the maximum; a non-fatal failed iteration pauses 10s and
restarts without running the post-capture steps; a successful capture
resets the counter to 0.  Starting from 0, `M - 1` consecutive failures
leave the loop running with counter `M - 1`, while `M` consecutive
failures exit the process with code 1.  The alerting loop (`main.py`)
is the degenerate instance whose maximum is 1: its first capture
failure exits the process with code 1 at once. -/
theorem dataset_consecutive_failures (maxFail f M : Nat) (u : Bool)
    (res : ResultVal) (hM : 0 < M) :
    (datasetStep maxFail f .capFail =
       if maxFail ≤ f + 1 then .exitFatal 1
       else .continueLoop (f + 1) true false)
  ∧ datasetStep maxFail f (.capOk u) = .continueLoop 0 false true
  ∧ runDataset M 0 (List.replicate (M - 1) .capFail) = .running (M - 1)
  ∧ runDataset M 0 (List.replicate M .capFail) = .exited 1
  ∧ mainIter false res = .exited 1 := by
  refine ⟨?_, ?_, ?_, ?_, ?_⟩
  · by_cases h : maxFail ≤ f + 1 <;> simp [datasetStep, dsBody, h]
  · simp [datasetStep, dsBody]
  · rw [runDataset_replicate_capFail M (M - 1) 0 hM]
    have hx : 0 + (M - 1) < M := by omega
    simp [hx]
    omega
  · rw [runDataset_replicate_capFail M M 0 hM]
    simp
  · simp [mainIter]

/-- C1 witness: the hardcoded maximum of `capture_dataset.py` is 10;
after 9 consecutive capture failures the loop is still running, the
10th exits the process with code 1, and a success resets the counter. -/
theorem dataset_consecutive_failures_witness :
    (datasetStep MAX_CONSECUTIVE_FAILURES 0 .capFail =
       if MAX_CONSECUTIVE_FAILURES ≤ 0 + 1 then .exitFatal 1
       else .continueLoop (0 + 1) true false)
  ∧ datasetStep MAX_CONSECUTIVE_FAILURES 0 (.capOk false) =
      .continueLoop 0 false true
  ∧ runDataset MAX_CONSECUTIVE_FAILURES 0
      (List.replicate (MAX_CONSECUTIVE_FAILURES - 1) .capFail) =
      .running (MAX_CONSECUTIVE_FAILURES - 1)
  ∧ runDataset MAX_CONSECUTIVE_FAILURES 0
      (List.replicate MAX_CONSECUTIVE_FAILURES .capFail) = .exited 1
  ∧ mainIter false .noneResult = .exited 1 :=
  dataset_consecutive_failures MAX_CONSECUTIVE_FAILURES 0
    MAX_CONSECUTIVE_FAILURES false .noneResult (by decide)

/-- C2 counterexample: the alerting orchestration loop (`main_loop` in
`main.py`) has no iteration-level exception handler.  With a successful
capture and the analysis call returning the string result
`"not json"`, on which the secondary `json.loads` raises
`JSONDecodeError`, the exception escapes the iteration and crashes the
process instead of being caught, pausing 10 seconds and continuing. -/
theorem main_loop_exception_escapes :
    mainIter true (.strResult "not json" none) = .crashed := by
  simp [mainIter]

/-- C2 amended: only the dataset-capture loop (`capture_dataset.py`)
has the top-level per-iteration safety net: an exception raised inside
its iteration body that no more specific handler catches is caught by
the iteration's `except Exception`, which pauses 10 seconds and
continues with the failure counter unchanged; an upload exception is
handled by the dedicated inner handler and the iteration continues
without the pause.  The alerting loop (`main.py`) has no such handler
(see the counterexample). -/
theorem dataset_loop_catchall (maxFail f : Nat) :
    datasetStep maxFail f .bodyRaises = .continueLoop f true false
  ∧ datasetStep maxFail f (.capOk true) = .continueLoop 0 false true := by
  constructor <;> simp [datasetStep, dsBody]

/-- C4 counterexample: the credential backend returns
`access_token "abc"` with `expires_in` 10 at time 0, so the cache holds
`abc` expiring at 10.  A `get_token` call at time 5 then performs an
HTTP refresh request (the cache-hit test is `5 < 10 - 60`, which
fails because of the 60s safety margin) and returns the fresh token
rather than reusing `abc` without a network call. -/
theorem short_lived_token_not_cached :
    (get_token TokenState.init 0 (.ok "abc" 10)).state =
      { token := some "abc", expiry := 10 }
  ∧ (get_token { token := some "abc", expiry := 10 } 5
      (.ok "zzz" 3600)).httpCalls = 1
  ∧ (get_token { token := some "abc", expiry := 10 } 5
      (.ok "zzz" 3600)).ret = some "zzz" := by
  refine ⟨?_, ?_, ?_⟩ <;> norm_num [get_token, strTruthy, TokenState.init]

/-- C4 amended: the scenario holds once the token outlives the 60s
safety margin: if the backend returns `access_token "abc"` with
`expires_in` 70 at time `t0`, a `get_token` call at `t0 + 5` returns
`abc` with no HTTP request, and a call at `t0 + 11` performs a refresh
request (for any backend replies `b2`, `b3` of those later calls). -/
theorem token_cache_scenario_amended (t0 e : ℚ) (b2 b3 : TokenResponse) :
    (get_token { token := none, expiry := e } t0 (.ok "abc" 70)).ret =
      some "abc"
  ∧ (get_token { token := none, expiry := e } t0 (.ok "abc" 70)).state =
      { token := some "abc", expiry := t0 + 70 }
  ∧ (get_token { token := some "abc", expiry := t0 + 70 } (t0 + 5) b2).ret =
      some "abc"
  ∧ (get_token { token := some "abc", expiry := t0 + 70 } (t0 + 5)
      b2).httpCalls = 0
  ∧ (get_token { token := some "abc", expiry := t0 + 70 } (t0 + 11)
      b3).httpCalls = 1 := by
  have hmiss : ¬ (strTruthy (none : Option String) = true ∧ t0 < e - 60) := by
    simp [strTruthy]
  have hhit : strTruthy (some "abc") = true ∧ t0 + 5 < t0 + 70 - 60 := by
    refine ⟨by simp [strTruthy], by linarith⟩
  have hmiss2 : ¬ (strTruthy (some "abc") = true ∧
      t0 + 11 < t0 + 70 - 60) := by
    rintro ⟨-, h⟩
    linarith
  refine ⟨?_, ?_, ?_, ?_, ?_⟩
  · simp only [get_token]
    rw [if_neg hmiss]
  · simp only [get_token]
    rw [if_neg hmiss]
    norm_num
  · simp only [get_token]
    rw [if_pos hhit]
  · simp only [get_token]
    rw [if_pos hhit]
  · simp only [get_token]
    rw [if_neg hmiss2]
    cases b3 <;> rfl

/-- C6: a `get_token` call that misses the cache and whose refresh
request ends in a non-2xx response or a transport exception leaves the
cached token and expiry exactly as they were, returns `None`, and
performs exactly one HTTP request (no internal retry). -/
theorem auth_failure_preserves_cache (st : TokenState) (now : ℚ)
    (b : TokenResponse)
    (hmiss : ¬ (strTruthy st.token = true ∧ now < st.expiry - 60))
    (hb : b = .exception ∨
      ∃ s, b = .httpError s ∧ ¬ (200 ≤ s ∧ s ≤ 299)) :
    (get_token st now b).state = st ∧ (get_token st now b).ret = none ∧
      (get_token st now b).httpCalls = 1 := by
  rcases hb with rfl | ⟨s, rfl, -⟩ <;>
    (first
      | (simp only [get_token]
         rw [if_neg hmiss]
         exact ⟨rfl, rfl, rfl⟩))

/-- C6 witness: a cached token expiring at 100, queried at 50 (inside
the 60s margin, hence a refresh), with the refresh answered by a 500
response: the cache is unchanged, the call returns `None` after one
request. -/
theorem auth_failure_preserves_cache_witness :
    (get_token { token := some "abc", expiry := 100 } 50
      (.httpError 500)).state = { token := some "abc", expiry := 100 }
  ∧ (get_token { token := some "abc", expiry := 100 } 50
      (.httpError 500)).ret = none
  ∧ (get_token { token := some "abc", expiry := 100 } 50
      (.httpError 500)).httpCalls = 1 :=
  auth_failure_preserves_cache _ _ _
    (by norm_num [strTruthy])
    (Or.inr ⟨500, rfl, by norm_num⟩)

/-- C3: for an analysis call holding a usable token, an HTTP 200
response whose body fails JSON parsing ends the call with an error
(`None`) immediately after that attempt, with no further requests;
whereas when every attempt is a non-200 status or a transport
exception, the call performs all `retries` requests and then returns
an error. -/
theorem analysis_retry_semantics (tmSt : TokenState) (now : ℚ)
    (tb : TokenResponse) (env : Nat → ApiAttempt) (jit : Nat → ℚ)
    (retries k : Nat) (tok : String)
    (htok : (get_token tmSt now tb).ret = some tok) (hne : tok ≠ "") :
    ((∀ j, j < k → retryable (env j) = true) → k < retries →
        env k = .reply 200 none →
        (analyze_image_veolia true tmSt now tb env jit retries).result = none
      ∧ (analyze_image_veolia true tmSt now tb env jit
          retries).authTokens.length = k + 1)
  ∧ ((∀ j, j < retries → retryable (env j) = true) →
        (analyze_image_veolia true tmSt now tb env jit retries).result = none
      ∧ (analyze_image_veolia true tmSt now tb env jit
          retries).authTokens.length = retries) := by
  have hred : analyze_image_veolia true tmSt now tb env jit retries =
      { result := (apiLoop tok env jit 0 retries).result
        sleeps := (apiLoop tok env jit 0 retries).sleeps
        authTokens := (apiLoop tok env jit 0 retries).authTokens
        tokenFetches := 1 } := by
    simp [analyze_image_veolia, htok, hne]
  constructor
  · intro hpre hk henv
    have hx := apiLoop_parse_failure_stops tok env jit k retries 0 hk
      (fun j hj => by simpa using hpre j hj) (by simpa using henv)
    rw [hred]
    exact hx
  · intro hall
    have hx := apiLoop_all_retry tok env jit retries 0
      (fun j hj => by simpa using hall j hj)
    rw [hred]
    exact hx

/-- C3 witness: with a cached token `t`, attempt 0 a transport
exception and attempt 1 an HTTP 200 whose body fails parsing, the call
stops after 2 of its 3 allowed attempts with an error; the exhaustion
conjunct is instantiated at the same schedule. -/
theorem analysis_retry_semantics_witness :
    ((∀ j, j < 1 → retryable (envExcThen200Bad j) = true) → 1 < 3 →
        envExcThen200Bad 1 = .reply 200 none →
        (analyze_image_veolia true { token := some "t", expiry := 1000 } 0
          .exception envExcThen200Bad jitHalf 3).result = none
      ∧ (analyze_image_veolia true { token := some "t", expiry := 1000 } 0
          .exception envExcThen200Bad jitHalf 3).authTokens.length = 1 + 1)
  ∧ ((∀ j, j < 3 → retryable (envExcThen200Bad j) = true) →
        (analyze_image_veolia true { token := some "t", expiry := 1000 } 0
          .exception envExcThen200Bad jitHalf 3).result = none
      ∧ (analyze_image_veolia true { token := some "t", expiry := 1000 } 0
          .exception envExcThen200Bad jitHalf 3).authTokens.length = 3) :=
  analysis_retry_semantics { token := some "t", expiry := 1000 } 0
    .exception envExcThen200Bad jitHalf 3 1 "t"
    (by
      have ht : ("t" : String) ≠ "" := by decide
      norm_num [get_token, strTruthy, ht])
    (by decide)

/-- C5 counterexample: with a cached token, every attempt a transport
exception and every jitter draw equal to one half (a legitimate value
of `uniform(0, 1)`), the delays slept are `3/2`, `5/2`, `9/2`: the
delay the client waits before attempt 1 (the first element) is `3/2`,
which is not in the claimed interval from `2^1` to `2^1 + 1`; moreover
no delay at all precedes attempt 0, though the claim requires one of
at least `2^0` seconds.  The source sleeps `2 ** attempt + jitter`
after failed attempt `attempt`, not before it. -/
theorem backoff_delay_counterexample :
    (analyze_image_veolia true { token := some "t", expiry := 1000 } 0
      .exception envAllExc jitHalf 3).sleeps = [3/2, 5/2, 9/2]
  ∧ ¬ ((2 : ℚ) ≤ 3/2) ∧ (0 : ℚ) ≤ 1/2 ∧ (1 : ℚ)/2 < 1 := by
  have ht : ("t" : String) ≠ "" := by decide
  refine ⟨?_, by norm_num, by norm_num, by norm_num⟩
  norm_num [analyze_image_veolia, get_token, strTruthy, apiLoop,
    envAllExc, jitHalf, ht]

/-- C5 amended: the backoff delay the client sleeps after failed
attempt `k` (0-indexed) — which is the delay separating attempt `k`
from attempt `k + 1` when a further attempt occurs — is `2 ^ k` plus
the jitter drawn at attempt `k`, hence in the half-open interval from
`2 ^ k` to `2 ^ k + 1` whenever every jitter draw lies in that of 0 to
1; no delay precedes attempt 0. -/
theorem backoff_delay_after_attempt (tmSt : TokenState) (now : ℚ)
    (tb : TokenResponse) (env : Nat → ApiAttempt) (jit : Nat → ℚ)
    (retries k : Nat) (d : ℚ)
    (hjit : ∀ i, 0 ≤ jit i ∧ jit i < 1)
    (hd : (analyze_image_veolia true tmSt now tb env jit
      retries).sleeps[k]? = some d) :
    2 ^ k ≤ d ∧ d < 2 ^ k + 1 := by
  rcases hret : (get_token tmSt now tb).ret with - | tok
  · simp [analyze_image_veolia, hret] at hd
  · by_cases htok : tok = ""
    · simp [analyze_image_veolia, hret, htok] at hd
    · have hd' : (apiLoop tok env jit 0 retries).sleeps[k]? = some d := by
        simpa [analyze_image_veolia, hret, htok] using hd
      have hx := apiLoop_sleeps_elem tok env jit retries 0 k d hd'
      simp only [Nat.zero_add] at hx
      rcases hjit k with ⟨h0, h1⟩
      constructor
      · rw [hx]; linarith
      · rw [hx]; linarith

/-- C5 amended witness: at the concrete all-failing schedule with
jitter one half, the delay slept after attempt 0 is `3/2`, inside the
interval from `2^0` to `2^0 + 1`. -/
theorem backoff_delay_after_attempt_witness :
    2 ^ 0 ≤ (3/2 : ℚ) ∧ (3/2 : ℚ) < 2 ^ 0 + 1 :=
  backoff_delay_after_attempt { token := some "t", expiry := 1000 } 0
    .exception envAllExc jitHalf 3 0 (3/2)
    (fun _ => by norm_num [jitHalf])
    (by
      have ht : ("t" : String) ≠ "" := by decide
      norm_num [analyze_image_veolia, get_token, strTruthy, apiLoop,
        envAllExc, jitHalf, ht])

/-- C9: an analysis call that reads its image successfully invokes the
token manager exactly once, before any HTTP attempt, and every request
it sends carries exactly the token that single `get_token` call
returned — so a token expiring during backoff is never refreshed
within the call. -/
theorem token_fetched_once (tmSt : TokenState) (now : ℚ)
    (tb : TokenResponse) (env : Nat → ApiAttempt) (jit : Nat → ℚ)
    (retries : Nat) :
    (analyze_image_veolia true tmSt now tb env jit retries).tokenFetches = 1
  ∧ (analyze_image_veolia true tmSt now tb env jit retries).authTokens.all
      (fun s => (get_token tmSt now tb).ret == some s) = true := by
  rcases hret : (get_token tmSt now tb).ret with - | tok
  · simp [analyze_image_veolia, hret]
  · by_cases htok : tok = ""
    · simp [analyze_image_veolia, hret, htok]
    · constructor
      · simp [analyze_image_veolia, hret, htok]
      · rw [List.all_eq_true]
        intro s hs
        have hmem : s ∈ (apiLoop tok env jit 0 retries).authTokens := by
          simpa [analyze_image_veolia, hret, htok] using hs
        have hx := apiLoop_authTokens_eq tok env jit retries 0 s hmem
        subst hx
        simp [hret]

/-- C7: for both capture variants, when the backend fails on every
attempt the capture performs exactly `retries` attempts and returns
failure (`None`); when attempt `k` is the first to succeed, the capture
returns the saved file path at once after `k + 1` attempts, making no
further attempt. -/
theorem capture_bounded_retries (dir pre startT : String)
    (env : Nat → Bool) (timeAt : Nat → String) (cfg : ReolinkConfig)
    (retries k : Nat) (hcfg : reolinkConfigured cfg) :
    ((∀ j, j < retries → env j = false) →
        capture_image_local dir pre env timeAt retries = (none, retries)
      ∧ capture_image_reolink cfg pre startT env retries = (none, retries))
  ∧ (k < retries → env k = true → (∀ j, j < k → env j = false) →
        capture_image_local dir pre env timeAt retries =
          (some (dir ++ "/" ++ pre ++ "_" ++ timeAt k ++ ".jpg"), k + 1)
      ∧ capture_image_reolink cfg pre startT env retries =
          (some (cfg.image_dir.getD "captured_images" ++ "/" ++ pre ++ "_" ++
            startT ++ ".jpg"), k + 1)) := by
  constructor
  · intro hall
    constructor
    · exact captureLocalLoop_all_fail dir pre env timeAt retries 0
        (fun j hj => by simpa using hall j hj)
    · simp only [capture_image_reolink, if_pos hcfg]
      exact reolinkLoop_all_fail _ env retries 0
        (fun j hj => by simpa using hall j hj)
  · intro hk hsucc hpre
    constructor
    · have hx := captureLocalLoop_first_success dir pre env timeAt k retries 0
        hk (by simpa using hsucc) (fun j hj => by simpa using hpre j hj)
      simpa using hx
    · simp only [capture_image_reolink, if_pos hcfg]
      exact reolinkLoop_first_success _ env k retries 0 hk
        (by simpa using hsucc) (fun j hj => by simpa using hpre j hj)

/-- C7 witness: with the schedule on which only attempt 1 succeeds and
the default of 3 retries, both variants succeed after exactly 2
attempts; the exhaustion conjunct is instantiated at the same
schedule. -/
theorem capture_bounded_retries_witness :
    ((∀ j, j < 3 → camOkAt1 j = false) →
        capture_image_local "d" "image" camOkAt1 timeAtW 3 = (none, 3)
      ∧ capture_image_reolink cfgW "image" "20250321-120000" camOkAt1 3 =
          (none, 3))
  ∧ (1 < 3 → camOkAt1 1 = true → (∀ j, j < 1 → camOkAt1 j = false) →
        capture_image_local "d" "image" camOkAt1 timeAtW 3 =
          (some ("d" ++ "/" ++ "image" ++ "_" ++ timeAtW 1 ++ ".jpg"), 1 + 1)
      ∧ capture_image_reolink cfgW "image" "20250321-120000" camOkAt1 3 =
          (some (cfgW.image_dir.getD "captured_images" ++ "/" ++ "image" ++
            "_" ++ "20250321-120000" ++ ".jpg"), 1 + 1)) :=
  capture_bounded_retries "d" "image" "20250321-120000" camOkAt1 timeAtW
    cfgW 3 1 (by decide)

/-- C8 counterexample: on a directory holding the single file
`old.jpg` with last-modified time 0, swept at time 100 with a maximum
age of 10, the sweep deletes that one file, yet the call returns
`None` (the Python function body has no `return` statement), not the
count 1 of deleted files. -/
theorem sweep_returns_no_count :
    (cleanup_images 100 10
      [{ relPath := "old.jpg", mtime := 0, removable := true }]).1 = []
  ∧ (cleanup_images 100 10
      [{ relPath := "old.jpg", mtime := 0, removable := true }]).2 = none
  ∧ (cleanup_images 100 10
      [{ relPath := "old.jpg", mtime := 0, removable := true }]).2 ≠
      some 1 := by
  have hm : matchesGlob "old.jpg" = true := by decide
  refine ⟨?_, rfl, by simp [cleanup_images]⟩
  norm_num [cleanup_images, cleanupLoop, hm]

/-- C8 amended: the sweep returns no count — its return value is
`None` — while its filesystem effect is as claimed: it considers only
`.jpg` files directly in the directory (non-recursive), deletes every
such file whose age at the fixed `now` strictly exceeds
`maxAgeSeconds` and whose removal succeeds, retains every other entry
(in particular every file newer than the threshold), and a deletion
error on one file leaves the processing of the remaining files
unchanged (the head of the list affects only its own retention). -/
theorem sweep_semantics (now maxAge : ℚ) (fs : List SFile) (f : SFile) :
    (cleanup_images now maxAge fs).2 = none
  ∧ (cleanup_images now maxAge fs).1 =
      fs.filter (fun g => !(sweptAway now maxAge g))
  ∧ (cleanup_images now maxAge (f :: fs)).1 =
      (if sweptAway now maxAge f then [] else [f]) ++
        (cleanup_images now maxAge fs).1 := by
  refine ⟨rfl, cleanupLoop_eq_filter now maxAge fs, ?_⟩
  show cleanupLoop now maxAge (f :: fs) =
    (if sweptAway now maxAge f then [] else [f]) ++ cleanupLoop now maxAge fs
  rw [cleanupLoop_eq_filter, cleanupLoop_eq_filter]
  by_cases hs : sweptAway now maxAge f = true
  · simp [List.filter_cons, hs]
  · simp [List.filter_cons, Bool.eq_false_iff.mpr hs]

/-- C10: a network-snapshot capture with complete configuration builds
its destination path once, before the retry loop, from the timestamp
`startT` taken when the call started: whichever attempt `k` is the
first to succeed, the returned path embeds `startT`, independent of
the per-attempt wall-clock times (which the loop never consults). -/
theorem reolink_path_fixed (cfg : ReolinkConfig) (pre startT : String)
    (env : Nat → Bool) (retries k : Nat) (hcfg : reolinkConfigured cfg)
    (hk : k < retries) (hsucc : env k = true)
    (hpre : ∀ j, j < k → env j = false) :
    (capture_image_reolink cfg pre startT env retries).1 =
      some (cfg.image_dir.getD "captured_images" ++ "/" ++ pre ++ "_" ++
        startT ++ ".jpg") := by
  simp only [capture_image_reolink, if_pos hcfg]
  rw [reolinkLoop_first_success _ env k retries 0 hk (by simpa using hsucc)
    (fun j hj => by simpa using hpre j hj)]

/-- C10 witness: with only attempt 2 succeeding, the returned path
still embeds the call-start timestamp. -/
theorem reolink_path_fixed_witness :
    (capture_image_reolink cfgW "dataset_image" "20250321-130000"
      camOkAt2 3).1 =
      some (cfgW.image_dir.getD "captured_images" ++ "/" ++
        "dataset_image" ++ "_" ++ "20250321-130000" ++ ".jpg") :=
  reolink_path_fixed cfgW "dataset_image" "20250321-130000" camOkAt2 3 2
    (by decide) (by decide) (by decide) (by decide)

end VWT
